import Mathlib

/-!
Shallow embedding of `src/parser.py` (Argentine Senate voting-record scraper).

Strings are modelled as `List Char`; each Python `re` pattern used by
`parse_votation_data` is embedded as a deterministic matcher that reproduces
the leftmost-match, greedy/lazy and backtracking behaviour of the concrete
pattern (derived pattern by pattern; the patterns are simple enough that the
backtracking search collapses to a deterministic procedure, documented at
each definition).  Character classes (`\s`, `\w`) are modelled over the
ASCII + Spanish accented repertoire that the documents use.
-/

namespace Senate

/-- Python `\d` (ASCII digits; `re` on `str` without LOCALE). -/
def isDigitC (c : Char) : Bool := '0' ≤ c && c ≤ '9'

/-- Python `\s` restricted to the ASCII whitespace characters. -/
def isSpaceC (c : Char) : Bool :=
  c == ' ' || c == '\t' || c == '\n' || c == '\r' || c == '\x0b' || c == '\x0c'

/-- The uppercase class `[A-ZÁÉÍÓÚÑ]` used by the vote and result patterns. -/
def isUpperC (c : Char) : Bool :=
  ('A' ≤ c && c ≤ 'Z') || c == 'Á' || c == 'É' || c == 'Í' || c == 'Ó' || c == 'Ú' || c == 'Ñ'

/-- Python `\w` (word character) over the repertoire appearing in the
documents: ASCII letters, digits, underscore, and the Spanish accented
letters in both cases. -/
def isWordC (c : Char) : Bool :=
  ('A' ≤ c && c ≤ 'Z') || ('a' ≤ c && c ≤ 'z') || isDigitC c || c == '_' ||
  c == 'Á' || c == 'É' || c == 'Í' || c == 'Ó' || c == 'Ú' || c == 'Ñ' ||
  c == 'á' || c == 'é' || c == 'í' || c == 'ó' || c == 'ú' || c == 'ñ' || c == 'ü' || c == 'Ü'

/-- The class `[^\n]` (any character but a newline). -/
def notNl (c : Char) : Bool := c != '\n'

/-- The class `[^()\n]` used for the lazy name capture of the vote pattern. -/
def npC (c : Char) : Bool := c != '(' && c != ')' && c != '\n'

/-- The class `[A-ZÁÉÍÓÚÑ ]` of the `Resultado:` pattern. -/
def resultC (c : Char) : Bool := isUpperC c || c == ' '

/-- Longest run of characters satisfying `cls` starting at position `p`
(the greedy `cls*` / `cls+` capture). -/
def capRun (cls : Char → Bool) (cs : List Char) (p : Nat) : List Char :=
  (cs.drop p).takeWhile cls

/-- Length of the longest `cls` run at `p`. -/
def runLen (cls : Char → Bool) (cs : List Char) (p : Nat) : Nat :=
  (capRun cls cs p).length

/-- Test whether `lit` occurs literally at position `p` of `cs`. -/
def litAt (lit cs : List Char) (p : Nat) : Bool :=
  (cs.drop p).take lit.length == lit

/-- Backtracking step for `\s*(cls…)` tails: the whitespace star first
consumes as much as possible (the caller passes `w = runLen isSpaceC cs q`),
then gives characters back one at a time until the following one-or-more
class capture can start.  Returns the start position of the capture. -/
def btTry (cls : Char → Bool) (cs : List Char) (q : Nat) : Nat → Option Nat
  | 0 => match cs[q]? with
    | some c => if cls c then some q else none
    | none => none
  | w + 1 => match cs[(q + w + 1)]? with
    | some c => if cls c then some (q + w + 1) else btTry cls cs q w
    | none => btTry cls cs q w

/-- Match `\s*(cls+)` at position `q` with Python's greedy/backtracking
semantics, returning the (greedy) capture. -/
def wsThenCls (cls : Char → Bool) (cs : List Char) (q : Nat) : Option (List Char) :=
  match btTry cls cs q (runLen isSpaceC cs q) with
  | some st => some (capRun cls cs st)
  | none => none

/-- Attempt, at position `p`, a pattern of the shape `lit\s*(cls+)` (when
`ws = true`) or `lit(cls+)` (when `ws = false`). -/
def tryLitCls (lit : List Char) (ws : Bool) (cls : Char → Bool) (cs : List Char) (p : Nat) :
    Option (List Char) :=
  if litAt lit cs p then
    let q := p + lit.length
    if ws then wsThenCls cls cs q
    else match cs[q]? with
      | some c => if cls c then some (capRun cls cs q) else none
      | none => none
  else none

/-- Python `re.search` position scan: try `f` at `p`, `p+1`, … (at most `fuel`
positions), returning the first success — Python's leftmost-match rule. -/
def searchFrom (f : Nat → Option α) : Nat → Nat → Option α
  | 0, _ => none
  | fuel + 1, p =>
    match f p with
    | some v => some v
    | none => searchFrom f fuel (p + 1)

/-- Python `re.search` over the whole subject: positions `0 … cs.length` suffice
because every pattern needs at least one character past its start. -/
def reSearch (f : Nat → Option α) (cs : List Char) : Option α :=
  searchFrom f (cs.length + 1) 0

/-- Pattern `Proyecto:\s*([^\n]+)` (parser.py line 63). -/
def proyectoSearch (cs : List Char) : Option (List Char) :=
  reSearch (tryLitCls "Proyecto:".toList true notNl cs) cs

/-- Pattern `ORDEN DEL DIA (\d+)` (parser.py line 67), run on the project line. -/
def ordenNumSearch (cs : List Char) : Option (List Char) :=
  reSearch (tryLitCls "ORDEN DEL DIA ".toList false isDigitC cs) cs

/-- One attempt of `ORDEN DEL DIA \d+\s*\((.*?)\)` (parser.py line 71) at
position `p`: greedy digits, greedy whitespace, a literal `(`, then the lazy
dot capture, which (`.` not matching newlines) is everything up to the first
`)` provided no newline intervenes. -/
def tryOrdenTitle (cs : List Char) (p : Nat) : Option (List Char) :=
  if litAt "ORDEN DEL DIA ".toList cs p then
    let q := p + "ORDEN DEL DIA ".length
    let d := runLen isDigitC cs q
    if d = 0 then none
    else
      let w := runLen isSpaceC cs (q + d)
      if cs[(q + d + w)]? = some '(' then
        let st := q + d + w + 1
        let inner := capRun (fun c => c != ')' && c != '\n') cs st
        if cs[(st + inner.length)]? = some ')' then some inner else none
      else none
  else none

/-- Pattern `ORDEN DEL DIA \d+\s*\((.*?)\)` search. -/
def ordenTitleSearch (cs : List Char) : Option (List Char) :=
  reSearch (tryOrdenTitle cs) cs

/-- One attempt of `MOCION SOBRE TABLAS Nº (\d+/\d+)` (parser.py line 79). -/
def tryMocion (cs : List Char) (p : Nat) : Option (List Char) :=
  if litAt "MOCION SOBRE TABLAS Nº ".toList cs p then
    let q := p + "MOCION SOBRE TABLAS Nº ".length
    let d1 := runLen isDigitC cs q
    if d1 = 0 then none
    else if cs[(q + d1)]? = some '/' then
      let d2 := runLen isDigitC cs (q + d1 + 1)
      if d2 = 0 then none else some ((cs.drop q).take (d1 + 1 + d2))
    else none
  else none

/-- Pattern `MOCION SOBRE TABLAS Nº (\d+/\d+)` search. -/
def mocionSearch (cs : List Char) : Option (List Char) :=
  reSearch (tryMocion cs) cs

/-- Pattern `Descripción:\s*([^\n]+)` (parser.py line 86). -/
def descripcionSearch (cs : List Char) : Option (List Char) :=
  reSearch (tryLitCls "Descripción:".toList true notNl cs) cs

/-- Pattern `Tipo Quorum: ([^\n]+)` (parser.py line 98). -/
def quorumSearch (cs : List Char) : Option (List Char) :=
  reSearch (tryLitCls "Tipo Quorum: ".toList false notNl cs) cs

/-- Pattern `Mayoría: ([^\n]+)` (parser.py line 99). -/
def majoritySearch (cs : List Char) : Option (List Char) :=
  reSearch (tryLitCls "Mayoría: ".toList false notNl cs) cs

/-- Pattern `Miembros del cuerpo: (\d+)` (parser.py line 105). -/
def membersSearch (cs : List Char) : Option (List Char) :=
  reSearch (tryLitCls "Miembros del cuerpo: ".toList false isDigitC cs) cs

/-- Pattern `Presentes: (\d+)` (parser.py line 106). -/
def presentesSearch (cs : List Char) : Option (List Char) :=
  reSearch (tryLitCls "Presentes: ".toList false isDigitC cs) cs

/-- Pattern `Ausentes: (\d+)` (parser.py line 107). -/
def ausentesSearch (cs : List Char) : Option (List Char) :=
  reSearch (tryLitCls "Ausentes: ".toList false isDigitC cs) cs

/-- Pattern `Afirmativos: (\d+)` (parser.py line 108). -/
def afirmativosSearch (cs : List Char) : Option (List Char) :=
  reSearch (tryLitCls "Afirmativos: ".toList false isDigitC cs) cs

/-- Pattern `Negativos:\s*(\d+)` (parser.py line 109). -/
def negativosSearch (cs : List Char) : Option (List Char) :=
  reSearch (tryLitCls "Negativos:".toList true isDigitC cs) cs

/-- Pattern `Abstenciones:\s*(\d+)` (parser.py line 110). -/
def abstencionesSearch (cs : List Char) : Option (List Char) :=
  reSearch (tryLitCls "Abstenciones:".toList true isDigitC cs) cs

/-- Pattern `Resultado:\s*([A-ZÁÉÍÓÚÑ ]+)` (parser.py line 162). -/
def resultadoSearch (cs : List Char) : Option (List Char) :=
  reSearch (tryLitCls "Resultado:".toList true resultC cs) cs

/-- The timestamp shape `\d{2}/\d{2}/\d{4} \d{2}:\d{2}:\d{2}` (19 chars). -/
def tsShapeB : List Char → Bool
  | [a, b, c, d, e, f, g, h, i, j, k, l, m, n, o, p, q, r, s] =>
    isDigitC a && isDigitC b && c == '/' && isDigitC d && isDigitC e && f == '/' &&
    isDigitC g && isDigitC h && isDigitC i && isDigitC j && k == ' ' &&
    isDigitC l && isDigitC m && n == ':' && isDigitC o && isDigitC p && q == ':' &&
    isDigitC r && isDigitC s
  | _ => false

/-- Attempt the bare timestamp `\d{2}/\d{2}/\d{4} \d{2}:\d{2}:\d{2}` at `p`. -/
def tsAt (cs : List Char) (p : Nat) : Option (List Char) :=
  let w := (cs.drop p).take 19
  if tsShapeB w then some w else none

/-- One attempt of `(?:Fecha:|Fecha )?(\d{2}/\d{2}/\d{4} \d{2}:\d{2}:\d{2})`
(parser.py line 89) at position `p`: the optional prefix alternatives are,
in Python's order, `Fecha:`, then `Fecha `, then the empty prefix. -/
def tryDateAt (cs : List Char) (p : Nat) : Option (List Char) :=
  match (if litAt "Fecha:".toList cs p then tsAt cs (p + 6) else none) with
  | some w => some w
  | none =>
    match (if litAt "Fecha ".toList cs p then tsAt cs (p + 6) else none) with
    | some w => some w
    | none => tsAt cs p

/-- The date search of parser.py line 89. -/
def dateSearch (cs : List Char) : Option (List Char) :=
  reSearch (tryDateAt cs) cs

/-- Leftmost bare-timestamp search (the prefix-free reading of the date
pattern), used to compare against `dateSearch`. -/
def firstTs (cs : List Char) : Option (List Char) :=
  reSearch (tsAt cs) cs

/-- Substring predicate: `s` occurs contiguously inside `l` (substring, as lists of chars). -/
def isSubseg (s l : List Char) : Prop := ∃ a b, l = a ++ s ++ b

/-- Python `int()` on a captured digit run. -/
def toNatDigits (l : List Char) : Nat :=
  l.foldl (fun n c => n * 10 + (c.toNat - '0'.toNat)) 0

/-- Python `str.strip()` (whitespace from both ends). -/
def pyStrip (l : List Char) : List Char :=
  ((l.dropWhile isSpaceC).reverse.dropWhile isSpaceC).reverse

/-- Python `str.replace('  ', ' ')`: non-overlapping left-to-right
replacement of two spaces by one. -/
def replDD : List Char → List Char
  | ' ' :: ' ' :: rest => ' ' :: replDD rest
  | c :: rest => c :: replDD rest
  | [] => []

/-! ## The per-member vote pattern (parser.py line 128)

`(?:\d+\s*\.\s*|\b)([A-ZÁÉÍÓÚÑ][^()\n]+?)\s+(SI|NO|AUSENTE)\s+(\d+|Presidente)`

swept over the text with `re.findall` (leftmost, non-overlapping, resuming
at each match's end).  The backtracking search collapses to a deterministic
procedure: the numeric prefix alternative is tried before the word
boundary; the greedy `\d+`/`\s*`/`\s+` pieces never profitably give
characters back (the token that must follow each of them is never a digit
or whitespace character); the lazy name capture grows one character at a
time until the `\s+(SI|NO|AUSENTE)\s+(\d+|Presidente)` tail matches. -/

/-- The token alternation `(SI|NO|AUSENTE)` at `p` (first alternative that
matches; their first letters are pairwise distinct, so the choice is
deterministic). Returns (consumed length, token). -/
def tokAt (cs : List Char) (p : Nat) : Option (Nat × List Char) :=
  if litAt "SI".toList cs p then some (2, "SI".toList)
  else if litAt "NO".toList cs p then some (2, "NO".toList)
  else if litAt "AUSENTE".toList cs p then some (7, "AUSENTE".toList)
  else none

/-- The seat alternation `(\d+|Presidente)` at `p`. -/
def seatAt (cs : List Char) (p : Nat) : Option (Nat × List Char) :=
  let ds := capRun isDigitC cs p
  if ds.length ≠ 0 then some (ds.length, ds)
  else if litAt "Presidente".toList cs p then some (10, "Presidente".toList)
  else none

/-- The tail `\s+(SI|NO|AUSENTE)\s+(\d+|Presidente)` at position `p`;
returns (end position, token, seat). -/
def voteTailAt (cs : List Char) (p : Nat) : Option (Nat × List Char × List Char) :=
  let w1 := runLen isSpaceC cs p
  if w1 = 0 then none
  else
    match tokAt cs (p + w1) with
    | none => none
    | some (tl, tok) =>
      let w2 := runLen isSpaceC cs (p + w1 + tl)
      if w2 = 0 then none
      else
        match seatAt cs (p + w1 + tl + w2) with
        | none => none
        | some (sl, seat) => some (p + w1 + tl + w2 + sl, tok, seat)

/-- Lazy expansion of `[^()\n]+?`: `e` is the position of the next character
the name would absorb; after absorbing it the tail is attempted at `e + 1`.
Returns (exclusive name end, token, seat, match end). -/
def lazyNameLoop (cs : List Char) : Nat → Nat → Option (Nat × List Char × List Char × Nat)
  | 0, _ => none
  | fuel + 1, e =>
    match cs[e]? with
    | none => none
    | some c =>
      if npC c then
        match voteTailAt cs (e + 1) with
        | some (endP, tok, seat) => some (e + 1, tok, seat, endP)
        | none => lazyNameLoop cs fuel (e + 1)
      else none

/-- The group-1-and-tail core `([A-ZÁÉÍÓÚÑ][^()\n]+?)\s+…` at position `s`. -/
def coreAt (cs : List Char) (s : Nat) : Option (Nat × List Char × List Char × Nat) :=
  match cs[s]? with
  | some c => if isUpperC c then lazyNameLoop cs cs.length (s + 1) else none
  | none => none

/-- The numeric prefix alternative `\d+\s*\.\s*` at `p`: returns the
position after it when its structure matches. -/
def prefNum (cs : List Char) (p : Nat) : Option Nat :=
  let d := runLen isDigitC cs p
  if d = 0 then none
  else
    let w := runLen isSpaceC cs (p + d)
    if cs[(p + d + w)]? = some '.' then
      some (p + d + w + 1 + runLen isSpaceC cs (p + d + w + 1))
    else none

/-- Word-character test tolerant of out-of-range positions. -/
def isWordAt (cs : List Char) (p : Nat) : Bool :=
  match cs[p]? with
  | some c => isWordC c
  | none => false

/-- Python `\b` at position `p`. -/
def wordBAt (cs : List Char) (p : Nat) : Bool :=
  (if p = 0 then false else isWordAt cs (p - 1)) != isWordAt cs p

/-- One attempt of the whole vote pattern at position `p`: the numeric
prefix alternative first, falling back to the word boundary (also when the
prefix's structure matched but the core failed after it, as Python's
backtracking does).  Returns (raw name, token, seat, match end). -/
def matchVoteAt (cs : List Char) (p : Nat) : Option (List Char × List Char × List Char × Nat) :=
  let viaB : Option (List Char × List Char × List Char × Nat) :=
    if wordBAt cs p then
      match coreAt cs p with
      | some (ne, tok, seat, endP) => some ((cs.drop p).take (ne - p), tok, seat, endP)
      | none => none
    else none
  match prefNum cs p with
  | some s =>
    match coreAt cs s with
    | some (ne, tok, seat, endP) => some ((cs.drop s).take (ne - s), tok, seat, endP)
    | none => viaB
  | none => viaB

/-- Python `re.findall` sweep: attempt at `p`, resume after each match, advance one
position otherwise; every iteration advances, so `cs.length + 1` attempts
exhaust the subject. -/
def scanVotes (cs : List Char) : Nat → Nat → List (List Char × List Char × List Char)
  | 0, _ => []
  | fuel + 1, p =>
    match matchVoteAt cs p with
    | some (nm, tok, seat, endP) => (nm, tok, seat) :: scanVotes cs fuel endP
    | none => if p < cs.length then scanVotes cs fuel (p + 1) else []

/-- All raw vote-pattern matches of the text, in order of appearance. -/
def findVotes (cs : List Char) : List (List Char × List Char × List Char) :=
  scanVotes cs (cs.length + 1) 0

/-- One member's recorded vote (parser.py lines 139-143). -/
structure VoteEntry where
  name : String
  vote : String
  seat : String
deriving DecidableEq, Repr

/-- The per-match loop of parser.py lines 130-143: strip the name, collapse
double spaces, keep the entry unless the cleaned name is shorter than two
characters.  (The `seat if seat != "Presidente" else "Presidente"` of line
142 is the identity.) -/
def buildVotes (raw : List (List Char × List Char × List Char)) : List VoteEntry :=
  raw.filterMap fun m =>
    let nm := replDD (pyStrip m.1)
    if 2 ≤ nm.length then some ⟨nm.asString, m.2.1.asString, m.2.2.asString⟩ else none

/-- The full `votes` extraction of parser.py lines 126-143. -/
def extractVotes (cs : List Char) : List VoteEntry :=
  buildVotes (findVotes cs)

/-- The `data` dictionary built by `parse_votation_data`, field for field.
`motion_number` is doubly optional because the Python code distinguishes
the key being absent from the dictionary (`none`) from the key being
present with value `None` (`some none`): the key is never set when a
`Proyecto:` line matched without an `ORDEN DEL DIA` number (lines 74-76),
and is set to `None` when neither motion format matched (line 83).
`project_title` is either absent or a string, never a stored `None`.
`act_id` is absent after parsing; `main` adds it (line 203).  The field
order mirrors the dictionary's insertion order (serialization preserves
it). -/
structure VotingAct where
  motion_number : Option (Option String)
  project_title : Option String
  description : Option String
  date : Option String
  quorum_type : Option String
  majority_required : Option String
  total_members : Option Nat
  present : Option Nat
  absent : Option Nat
  affirmative : Option Nat
  negative : Option Nat
  abstentions : Option Nat
  votes : List VoteEntry
  result : Option String
  act_id : Option Nat
deriving DecidableEq, Repr

/-- The advisory warnings printed by `parse_votation_data` (lines 120-123
and 154-159); purely informational prints are not modelled. -/
inductive Diag where
  | totalMembersMismatch (total pres abs : Nat)
  | affirmativeMismatch (counted reported : Nat)
  | negativeMismatch (counted reported : Nat)
  | absentMismatch (counted reported : Nat)
deriving DecidableEq, Repr

/-- Number of extracted votes carrying the given token (lines 148-152). -/
def countTok (tok : String) (vs : List VoteEntry) : Nat :=
  (vs.filter fun v => v.vote == tok).length

/-- Embedding of `parse_votation_data` (parser.py lines 58-165): every field is
extracted independently by its own pattern, except `motion_number` and
`project_title`, which are derived jointly from the `Proyecto:` line
(lines 62-83).  Returns the record and the advisory warnings in the order
the code prints them. -/
def parse_votation_data (t : String) : VotingAct × List Diag :=
  let cs := t.toList
  let motionTitle : Option (Option String) × Option String :=
    match proyectoSearch cs with
    | some cap =>
      let pt := pyStrip cap
      match ordenNumSearch pt with
      | some num =>
        (some (some num.asString), (ordenTitleSearch pt).map fun x => (pyStrip x).asString)
      | none => (none, some pt.asString)
    | none =>
      match mocionSearch cs with
      | some m => (some (some m.asString), none)
      | none => (some none, none)
  let descr := (descripcionSearch cs).map fun x => (pyStrip x).asString
  let dt := (dateSearch cs).map List.asString
  let qt := (quorumSearch cs).map fun x => (pyStrip x).asString
  let mj := (majoritySearch cs).map fun x => (pyStrip x).asString
  let tm := (membersSearch cs).map toNatDigits
  let pr := (presentesSearch cs).map toNatDigits
  let ab := (ausentesSearch cs).map toNatDigits
  let af := (afirmativosSearch cs).map toNatDigits
  let ng := (negativosSearch cs).map toNatDigits
  let abst := (abstencionesSearch cs).map toNatDigits
  let d1 : List Diag :=
    match tm, pr, ab with
    | some T, some P, some A => if T ≠ P + A then [.totalMembersMismatch T P A] else []
    | _, _, _ => []
  let vs := extractVotes cs
  let cSI := countTok "SI" vs
  let cNO := countTok "NO" vs
  let cAU := countTok "AUSENTE" vs
  let d2 : List Diag :=
    match af with
    | some n => if cSI ≠ n then [.affirmativeMismatch cSI n] else []
    | none => []
  let d3 : List Diag :=
    match ng with
    | some n => if cNO ≠ n then [.negativeMismatch cNO n] else []
    | none => []
  let d4 : List Diag :=
    match ab with
    | some n => if cAU ≠ n then [.absentMismatch cAU n] else []
    | none => []
  let rs := (resultadoSearch cs).map fun x => (pyStrip x).asString
  (⟨motionTitle.1, motionTitle.2, descr, dt, qt, mj, tm, pr, ab, af, ng, abst, vs, rs, none⟩,
   d1 ++ d2 ++ d3 ++ d4)

/-! ## Year-key derivation (`get_output_filename`, parser.py lines 18-26) -/

/-- Gregorian leap-year rule, as `datetime` uses. -/
def isLeap (y : Nat) : Bool := y % 4 == 0 && (y % 100 != 0 || y % 400 == 0)

/-- Days in a month, as `datetime` validates them. -/
def daysInMonth (y m : Nat) : Nat :=
  if m = 2 then (if isLeap y then 29 else 28)
  else if m = 4 ∨ m = 6 ∨ m = 9 ∨ m = 11 then 30
  else 31

/-- Embedding of `datetime.strptime(date_str, "%d/%m/%Y %H:%M:%S").year`, restricted to
the exact `dd/mm/yyyy hh:mm:ss` shape: the only strings reaching it in
`main` are captures of the date pattern, which always have that shape.
`strptime` rejects calendar-invalid values (day out of range for the
month, month > 12, hour > 23, minute/second > 59, year 0), raising
`ValueError`; that rejection is modelled by returning `none`. -/
def strptimeYear (cs : List Char) : Option Nat :=
  match cs with
  | [d1, d2, s1, m1, m2, s2, y1, y2, y3, y4, sp, h1, h2, c1, n1, n2, c2, e1, e2] =>
    if isDigitC d1 && isDigitC d2 && s1 == '/' && isDigitC m1 && isDigitC m2 && s2 == '/' &&
       isDigitC y1 && isDigitC y2 && isDigitC y3 && isDigitC y4 && sp == ' ' &&
       isDigitC h1 && isDigitC h2 && c1 == ':' && isDigitC n1 && isDigitC n2 && c2 == ':' &&
       isDigitC e1 && isDigitC e2 then
      let d := toNatDigits [d1, d2]
      let m := toNatDigits [m1, m2]
      let y := toNatDigits [y1, y2, y3, y4]
      let H := toNatDigits [h1, h2]
      let M := toNatDigits [n1, n2]
      let S := toNatDigits [e1, e2]
      if 1 ≤ m && m ≤ 12 && 1 ≤ d && d ≤ daysInMonth y m && 1 ≤ y &&
         H ≤ 23 && M ≤ 59 && S ≤ 59 then some y
      else none
    else none
  | _ => none

/-- Embedding of `get_output_filename` (parser.py lines 18-26): empty/missing date or an
unparsable date yields `None`; otherwise the year-partitioned filename. -/
def get_output_filename (date_str : String) : Option String :=
  if date_str = "" then none
  else
    match strptimeYear date_str.toList with
    | some y => some ("senate_voting_data_" ++ toString y ++ ".json")
    | none => none

/-! ## JSON serialization (`json.dump(..., indent=4, ensure_ascii=False)`,
parser.py lines 215-216) -/

/-- JSON values as produced for the year files (integers here are the
non-negative `int()` captures and identifiers, hence `Nat`). -/
inductive JValue where
  | jnull
  | jstr (s : String)
  | jnat (n : Nat)
  | jarr (items : List JValue)
  | jobj (fields : List (String × JValue))

def optStr : Option String → JValue
  | none => .jnull
  | some s => .jstr s

def optNat : Option Nat → JValue
  | none => .jnull
  | some n => .jnat n

/-- A serialized vote-entry dictionary (insertion order of lines 139-143). -/
def voteFields (v : VoteEntry) : List (String × JValue) :=
  [("name", .jstr v.name), ("vote", .jstr v.vote), ("seat", .jstr v.seat)]

/-- The key/value pairs of a serialized `VotingAct`, in the dictionary's
insertion order: `motion_number` and `project_title` appear only when their
keys were set; every other field is always present (null when absent);
`act_id` was inserted last by `main`. -/
def serializeFields (a : VotingAct) : List (String × JValue) :=
  (match a.motion_number with
   | none => []
   | some m => [("motion_number", optStr m)]) ++
  (match a.project_title with
   | none => []
   | some s => [("project_title", JValue.jstr s)]) ++
  [("description", optStr a.description), ("date", optStr a.date),
   ("quorum_type", optStr a.quorum_type), ("majority_required", optStr a.majority_required),
   ("total_members", optNat a.total_members), ("present", optNat a.present),
   ("absent", optNat a.absent), ("affirmative", optNat a.affirmative),
   ("negative", optNat a.negative), ("abstentions", optNat a.abstentions),
   ("votes", .jarr (a.votes.map fun v => .jobj (voteFields v))), ("result", optStr a.result)] ++
  (match a.act_id with
   | none => []
   | some i => [("act_id", JValue.jnat i)])

def hexDigit (n : Nat) : Char :=
  if n < 10 then Char.ofNat ('0'.toNat + n) else Char.ofNat ('a'.toNat + n - 10)

/-- JSON string escaping with `ensure_ascii=False`: only the quote, the
backslash and control characters are escaped; everything else (including
non-ASCII) is kept literally. -/
def escChar (c : Char) : String :=
  if c = '"' then "\\\""
  else if c = '\\' then "\\\\"
  else if c = '\n' then "\\n"
  else if c = '\t' then "\\t"
  else if c = '\r' then "\\r"
  else if c = '\x08' then "\\b"
  else if c = '\x0c' then "\\f"
  else if c.toNat < 32 then
    "\\u00" ++ String.mk [hexDigit (c.toNat / 16), hexDigit (c.toNat % 16)]
  else String.mk [c]

def escStr (s : String) : String :=
  "\"" ++ String.join (s.toList.map escChar) ++ "\""

def nspaces (n : Nat) : String := String.mk (List.replicate n ' ')

/-- Embedding of `json.dump` with `indent=4`, `ensure_ascii=False`.  The first argument
bounds the nesting depth (structural fuel); the values serialized by this
program nest at most five levels, so the fuel used by `renderActs` is never
exhausted. -/
def renderJ : Nat → Nat → JValue → String
  | 0, _, _ => ""
  | _ + 1, _, .jnull => "null"
  | _ + 1, _, .jstr s => escStr s
  | _ + 1, _, .jnat n => toString n
  | fuel + 1, ind, .jarr items =>
    match items with
    | [] => "[]"
    | _ =>
      "[\n" ++
      String.intercalate ",\n" (items.map fun x => nspaces (ind + 4) ++ renderJ fuel (ind + 4) x) ++
      "\n" ++ nspaces ind ++ "]"
  | fuel + 1, ind, .jobj fs =>
    match fs with
    | [] => "\x7b\x7d"
    | _ =>
      "\x7b\n" ++
      String.intercalate ",\n"
        (fs.map fun kv => nspaces (ind + 4) ++ escStr kv.1 ++ ": " ++ renderJ fuel (ind + 4) kv.2) ++
      "\n" ++ nspaces ind ++ "\x7d"

/-- The byte content written for one year file: the JSON array of all the
year's records (parser.py line 216). -/
def renderActs (acts : List VotingAct) : String :=
  renderJ 8 0 (.jarr (acts.map fun a => .jobj (serializeFields a)))

/-! ## Year Store and Acquisition Controller (`main`, parser.py
lines 167-229) -/

/-- Ordered-dictionary update: overwrite in place when the key exists,
append otherwise (Python `dict` assignment). -/
def setA (k : String) (v : α) : List (String × α) → List (String × α)
  | [] => [(k, v)]
  | (k', v') :: rest => if k' = k then (k, v) :: rest else (k', v') :: setA k v rest

/-- Ordered-dictionary lookup. -/
def getA (k : String) : List (String × α) → Option α
  | [] => none
  | (k', v') :: rest => if k' = k then some v' else getA k rest

/-- Rewrite the persisted file of one year from the given in-memory
collection (the `open(output_file, "w")` + `json.dump` of lines 215-216):
the file's previous content is discarded. -/
def persistYear (f : String) (coll : List VotingAct) (fs : List (String × String)) :
    List (String × String) :=
  setA f (renderActs coll) fs

/-- What the collaborators return for one identifier: the Document Source
fails (`download_pdf` returns `None`), the Text Extractor fails
(`extract_text_from_pdf` returns `None`), or a text is produced. -/
inductive FetchResult where
  | notFound
  | noText
  | text (t : String)
deriving DecidableEq, Repr

/-- The Controller's state: the cursor, the consecutive-failure counter,
the in-memory `results_by_year` collections, and the persisted files. -/
structure CState where
  current_id : Nat
  consecutive_failures : Nat
  results_by_year : List (String × List VotingAct)
  files : List (String × String)
deriving DecidableEq, Repr

/-- One iteration of the `while` loop of `main` (parser.py lines 189-227),
with the download + text-extraction collaborators abstracted as `oracle`.
The `except` guard around `parse_votation_data` (line 220) is dead in the
model because the embedded parser is total, as the Python function is on
every string input. -/
def mainStep (oracle : Nat → FetchResult) (s : CState) : CState :=
  let id := s.current_id + 1
  match oracle id with
  | .notFound => ⟨id, s.consecutive_failures + 1, s.results_by_year, s.files⟩
  | .noText => ⟨id, s.consecutive_failures + 1, s.results_by_year, s.files⟩
  | .text t =>
    let data := (parse_votation_data t).1
    match data.date with
    | none => ⟨id, s.consecutive_failures + 1, s.results_by_year, s.files⟩
    | some d =>
      let stored := { data with act_id := some id }
      match get_output_filename d with
      | none => ⟨id, 0, s.results_by_year, s.files⟩
      | some f =>
        let coll := ((getA f s.results_by_year).getD []) ++ [stored]
        ⟨id, 0, setA f coll s.results_by_year, persistYear f coll s.files⟩

/-- Constant `MAX_CONSECUTIVE_FAILURES` (parser.py line 187). -/
def failureThreshold : Nat := 5

/-- The `while consecutive_failures < MAX_CONSECUTIVE_FAILURES` loop,
bounded by fuel (the Python loop need not terminate against an
always-succeeding source; every claim concerns finitely many
iterations). -/
def mainRun (oracle : Nat → FetchResult) : Nat → CState → CState
  | 0, s => s
  | fuel + 1, s =>
    if s.consecutive_failures < failureThreshold then
      mainRun oracle fuel (mainStep oracle s)
    else s

/-! ## General facts about the position scan -/

theorem searchFrom_some {f : Nat → Option α} {fuel p : Nat} {v : α}
    (h : searchFrom f fuel p = some v) :
    ∃ q, p ≤ q ∧ q < p + fuel ∧ f q = some v := by
  induction fuel generalizing p with
  | zero => simp [searchFrom] at h
  | succ n ih =>
    rw [searchFrom] at h
    cases hf : f p with
    | some w =>
      rw [hf] at h
      exact ⟨p, Nat.le_refl _, by omega, by rw [hf]; exact h⟩
    | none =>
      rw [hf] at h
      obtain ⟨q, h1, h2, h3⟩ := ih h
      exact ⟨q, by omega, by omega, h3⟩

theorem searchFrom_none {f : Nat → Option α} {fuel p : Nat}
    (h : searchFrom f fuel p = none) :
    ∀ q, p ≤ q → q < p + fuel → f q = none := by
  induction fuel generalizing p with
  | zero => intro q h1 h2; omega
  | succ n ih =>
    intro q h1 h2
    rw [searchFrom] at h
    cases hf : f p with
    | some w => rw [hf] at h; cases h
    | none =>
      rw [hf] at h
      rcases Nat.eq_or_lt_of_le h1 with rfl | hlt
      · exact hf
      · exact ih h q hlt (by omega)

theorem searchFrom_first {f : Nat → Option α} {fuel p q : Nat} {v : α}
    (hpq : p ≤ q) (hq : q < p + fuel)
    (hnone : ∀ r, p ≤ r → r < q → f r = none) (hv : f q = some v) :
    searchFrom f fuel p = some v := by
  induction fuel generalizing p with
  | zero => omega
  | succ n ih =>
    rw [searchFrom]
    rcases Nat.eq_or_lt_of_le hpq with rfl | hlt
    · rw [hv]
    · rw [hnone p (Nat.le_refl _) hlt]
      exact ih (by omega) (by omega) (fun r h1 h2 => hnone r (by omega) h2)

theorem searchFrom_step {f : Nat → Option α} {fuel p : Nat} (h : f p = none) :
    searchFrom f (fuel + 1) p = searchFrom f fuel (p + 1) := by
  rw [searchFrom, h]

/-! ## Facts about the literal and timestamp matchers -/

theorem litAt_getElem {lit cs : List Char} {p : Nat} (h : litAt lit cs p = true) :
    ∀ i, i < lit.length → cs[(p + i)]? = lit[i]? := by
  intro i hi
  have he : (cs.drop p).take lit.length = lit := by
    simpa [litAt] using h
  have h2 : ((cs.drop p).take lit.length)[i]? = (cs.drop p)[i]? := by
    rw [List.getElem?_take, if_pos hi]
  rw [← List.getElem?_drop, ← h2, he]

theorem tsShapeB_length {w : List Char} (h : tsShapeB w = true) : w.length = 19 := by
  unfold tsShapeB at h
  split at h
  · simp
  · cases h

theorem tsShapeB_head {w : List Char} (h : tsShapeB w = true) :
    ∃ c, w.head? = some c ∧ isDigitC c = true := by
  unfold tsShapeB at h
  split at h
  · simp only [Bool.and_eq_true] at h
    exact ⟨_, rfl, h.1.1.1.1.1.1.1.1.1.1.1.1.1.1.1.1.1.1⟩
  · cases h

theorem tsAt_some {cs : List Char} {p : Nat} {w : List Char} (h : tsAt cs p = some w) :
    w = (cs.drop p).take 19 ∧ tsShapeB w = true := by
  simp only [tsAt] at h
  split at h
  · cases h
    constructor
    · rfl
    · assumption
  · cases h

theorem tsAt_head_digit {cs : List Char} {p : Nat} {w : List Char} (h : tsAt cs p = some w) :
    ∃ c, cs[p]? = some c ∧ isDigitC c = true := by
  obtain ⟨hw, hs⟩ := tsAt_some h
  obtain ⟨c, hc, hd⟩ := tsShapeB_head hs
  refine ⟨c, ?_, hd⟩
  rw [hw] at hc
  rw [List.head?_take] at hc
  · rw [List.head?_drop] at hc
    simpa using hc

theorem tsAt_none_of_not_digit {cs : List Char} {p : Nat} {c : Char}
    (hc : cs[p]? = some c) (hd : isDigitC c = false) : tsAt cs p = none := by
  cases h : tsAt cs p with
  | none => rfl
  | some w =>
    obtain ⟨c', hc', hd'⟩ := tsAt_head_digit h
    rw [hc] at hc'
    cases hc'
    rw [hd] at hd'
    cases hd'

theorem tsAt_le_length {cs : List Char} {p : Nat} {w : List Char} (h : tsAt cs p = some w) :
    p + 19 ≤ cs.length := by
  obtain ⟨hw, hs⟩ := tsAt_some h
  have hl := tsShapeB_length hs
  rw [hw, List.length_take, List.length_drop] at hl
  omega

theorem tsAt_subseg {cs : List Char} {p : Nat} {w : List Char} (h : tsAt cs p = some w) :
    isSubseg w cs := by
  obtain ⟨hw, _⟩ := tsAt_some h
  refine ⟨cs.take p, (cs.drop p).drop 19, ?_⟩
  rw [hw, List.append_assoc, List.take_append_drop, List.take_append_drop]

/-! ## The optional `Fecha` prefix never changes the captured date -/

theorem tryDateAt_of_ts {cs : List Char} {p : Nat} {w : List Char} (h : tsAt cs p = some w) :
    tryDateAt cs p = some w := by
  obtain ⟨c, hc, hd⟩ := tsAt_head_digit h
  have h1 : litAt "Fecha:".toList cs p = false := by
    cases hl : litAt "Fecha:".toList cs p
    · rfl
    · have := litAt_getElem hl 0 (by decide)
      rw [Nat.add_zero, hc] at this
      have hF : c = 'F' := by
        have e : ("Fecha:".toList)[0]? = some 'F' := by decide
        rw [e] at this
        exact (Option.some_inj.mp this)
      rw [hF] at hd
      cases hd
  have h2 : litAt "Fecha ".toList cs p = false := by
    cases hl : litAt "Fecha ".toList cs p
    · rfl
    · have := litAt_getElem hl 0 (by decide)
      rw [Nat.add_zero, hc] at this
      have hF : c = 'F' := by
        have e : ("Fecha ".toList)[0]? = some 'F' := by decide
        rw [e] at this
        exact (Option.some_inj.mp this)
      rw [hF] at hd
      cases hd
  unfold tryDateAt
  rw [h1, h2, h]
  rfl

theorem tryDateAt_cases {cs : List Char} {p : Nat} {w : List Char}
    (h : tryDateAt cs p = some w) (h0 : tsAt cs p = none) :
    (litAt "Fecha:".toList cs p = true ∨ litAt "Fecha ".toList cs p = true) ∧
    tsAt cs (p + 6) = some w := by
  unfold tryDateAt at h
  cases h1 : litAt "Fecha:".toList cs p <;>
    cases h2 : litAt "Fecha ".toList cs p <;>
      cases h6 : tsAt cs (p + 6) <;>
        (rw [h1, h2, h6, h0] at h; simp at h)
  · subst h; exact ⟨Or.inr rfl, rfl⟩
  · subst h; exact ⟨Or.inl rfl, rfl⟩
  · subst h; exact ⟨Or.inl rfl, rfl⟩

theorem tryDateAt_some_ts {cs : List Char} {p : Nat} {w : List Char}
    (h : tryDateAt cs p = some w) : ∃ q, tsAt cs q = some w := by
  cases h0 : tsAt cs p with
  | some u =>
    have := tryDateAt_of_ts h0
    rw [this] at h
    cases h
    exact ⟨p, h0⟩
  | none => exact ⟨p + 6, (tryDateAt_cases h h0).2⟩

theorem dateSearch_aux (cs : List Char) :
    ∀ fuel p, cs.length + 1 ≤ p + fuel →
      searchFrom (tryDateAt cs) fuel p = searchFrom (tsAt cs) fuel p := by
  intro fuel
  induction fuel with
  | zero => intro p _; rfl
  | succ n ih =>
    intro p hp
    cases hts : tsAt cs p with
    | some w =>
      rw [searchFrom, searchFrom, hts, tryDateAt_of_ts hts]
    | none =>
      cases hda : tryDateAt cs p with
      | none =>
        rw [searchFrom_step hda, searchFrom_step hts]
        exact ih (p + 1) (by omega)
      | some w =>
        obtain ⟨hlit, h6⟩ := tryDateAt_cases hda hts
        have hlen := tsAt_le_length h6
        rw [searchFrom, hda, searchFrom_step hts]
        symm
        apply searchFrom_first (q := p + 6) (by omega) (by omega) ?_ h6
        intro r h1 h2
        obtain ⟨i, rfl, hi1, hi2⟩ : ∃ i, r = p + i ∧ 1 ≤ i ∧ i < 6 :=
          ⟨r - p, by omega, by omega, by omega⟩
        rcases hlit with hl | hl
        · have hr := litAt_getElem hl i (by simpa using hi2)
          interval_cases i
          · exact tsAt_none_of_not_digit (c := 'e') (by rw [hr]; decide) (by decide)
          · exact tsAt_none_of_not_digit (c := 'c') (by rw [hr]; decide) (by decide)
          · exact tsAt_none_of_not_digit (c := 'h') (by rw [hr]; decide) (by decide)
          · exact tsAt_none_of_not_digit (c := 'a') (by rw [hr]; decide) (by decide)
          · exact tsAt_none_of_not_digit (c := ':') (by rw [hr]; decide) (by decide)
        · have hr := litAt_getElem hl i (by simpa using hi2)
          interval_cases i
          · exact tsAt_none_of_not_digit (c := 'e') (by rw [hr]; decide) (by decide)
          · exact tsAt_none_of_not_digit (c := 'c') (by rw [hr]; decide) (by decide)
          · exact tsAt_none_of_not_digit (c := 'h') (by rw [hr]; decide) (by decide)
          · exact tsAt_none_of_not_digit (c := 'a') (by rw [hr]; decide) (by decide)
          · exact tsAt_none_of_not_digit (c := ' ') (by rw [hr]; decide) (by decide)

theorem dateSearch_eq_firstTs (cs : List Char) : dateSearch cs = firstTs cs :=
  dateSearch_aux cs (cs.length + 1) 0 (by omega)

theorem firstTs_none_iff (cs : List Char) :
    firstTs cs = none ↔ ∀ w, isSubseg w cs → tsShapeB w = false := by
  constructor
  · rintro h w ⟨a, b, rfl⟩
    cases hsh : tsShapeB w with
    | false => rfl
    | true =>
      have hts : tsAt (a ++ w ++ b) a.length = some w := by
        have hdrop : (a ++ w ++ b).drop a.length = w ++ b := by
          rw [List.append_assoc, List.drop_left]
        have htake : ((a ++ w ++ b).drop a.length).take 19 = w := by
          rw [hdrop, ← tsShapeB_length hsh, List.take_left]
        simp only [tsAt, htake, hsh, if_pos]
      have hlen : a.length < (a ++ w ++ b).length + 1 := by
        simp [List.length_append]
        omega
      have := searchFrom_none h a.length (Nat.zero_le _) (by omega)
      rw [hts] at this
      cases this
  · intro h
    cases hf : firstTs cs with
    | none => rfl
    | some w =>
      obtain ⟨q, _, _, hq⟩ := searchFrom_some hf
      have h1 := (tsAt_some hq).2
      have h2 := h w (tsAt_subseg hq)
      rw [h1] at h2
      cases h2

/-! ## Invariants of the vote matcher: the seat is a digit run or the
presiding-officer literal, and kept names have length at least two -/

theorem takeWhile_all (cls : Char → Bool) (l : List Char) :
    (l.takeWhile cls).all cls = true := by
  induction l with
  | nil => rfl
  | cons c rest ih =>
    rw [List.takeWhile]
    cases hc : cls c with
    | true => simp [hc, ih]
    | false => rfl

theorem seatAt_ok {cs : List Char} {p n : Nat} {s : List Char}
    (h : seatAt cs p = some (n, s)) :
    (s ≠ [] ∧ s.all isDigitC = true) ∨ s = "Presidente".toList := by
  simp only [seatAt] at h
  split at h
  · rename_i hcond
    cases h
    refine Or.inl ⟨?_, takeWhile_all _ _⟩
    intro he
    rw [he] at hcond
    exact hcond rfl
  · split at h
    · cases h
      exact Or.inr rfl
    · cases h

theorem voteTailAt_ok {cs : List Char} {p e : Nat} {tok s : List Char}
    (h : voteTailAt cs p = some (e, tok, s)) :
    (s ≠ [] ∧ s.all isDigitC = true) ∨ s = "Presidente".toList := by
  simp only [voteTailAt] at h
  split at h
  · cases h
  · split at h
    · cases h
    · rename_i tl tok' heq
      split at h
      · cases h
      · split at h
        · cases h
        · rename_i sl s' heq2
          cases h
          exact seatAt_ok heq2

theorem lazyNameLoop_ok {cs : List Char} {fuel e ne : Nat} {tok s : List Char} {endP : Nat}
    (h : lazyNameLoop cs fuel e = some (ne, tok, s, endP)) :
    (s ≠ [] ∧ s.all isDigitC = true) ∨ s = "Presidente".toList := by
  induction fuel generalizing e with
  | zero => cases h
  | succ n ih =>
    rw [lazyNameLoop] at h
    split at h
    · cases h
    · split at h
      · split at h
        · rename_i heq
          cases h
          exact voteTailAt_ok heq
        · exact ih h
      · cases h

theorem coreAt_ok {cs : List Char} {p ne : Nat} {tok s : List Char} {endP : Nat}
    (h : coreAt cs p = some (ne, tok, s, endP)) :
    (s ≠ [] ∧ s.all isDigitC = true) ∨ s = "Presidente".toList := by
  simp only [coreAt] at h
  split at h
  · split at h
    · exact lazyNameLoop_ok h
    · cases h
  · cases h

theorem matchVoteAt_ok {cs : List Char} {p : Nat} {nm tok s : List Char} {endP : Nat}
    (h : matchVoteAt cs p = some (nm, tok, s, endP)) :
    (s ≠ [] ∧ s.all isDigitC = true) ∨ s = "Presidente".toList := by
  simp only [matchVoteAt] at h
  split at h
  · split at h
    · rename_i heq
      cases h
      exact coreAt_ok heq
    · split at h
      · split at h
        · rename_i heq
          cases h
          exact coreAt_ok heq
        · cases h
      · cases h
  · split at h
    · split at h
      · rename_i heq
        cases h
        exact coreAt_ok heq
      · cases h
    · cases h

theorem scanVotes_ok {cs : List Char} {fuel p : Nat} {m : List Char × List Char × List Char}
    (h : m ∈ scanVotes cs fuel p) :
    (m.2.2 ≠ [] ∧ m.2.2.all isDigitC = true) ∨ m.2.2 = "Presidente".toList := by
  induction fuel generalizing p with
  | zero => cases h
  | succ n ih =>
    rw [scanVotes] at h
    split at h
    · rename_i heq
      rcases List.mem_cons.mp h with rfl | hm
      · exact matchVoteAt_ok heq
      · exact ih hm
    · split at h
      · exact ih h
      · cases h

theorem extractVotes_ok {cs : List Char} {v : VoteEntry} (h : v ∈ extractVotes cs) :
    ((v.seat.toList ≠ [] ∧ v.seat.toList.all isDigitC = true) ∨ v.seat = "Presidente") ∧
    2 ≤ v.name.length := by
  obtain ⟨m, hm, hv⟩ := List.mem_filterMap.mp h
  have hseat := scanVotes_ok hm
  dsimp only at hv
  split at hv
  · rename_i hlen
    cases hv
    constructor
    · rcases hseat with ⟨hne, hall⟩ | hp
      · exact Or.inl ⟨by simpa using hne, by simpa using hall⟩
      · exact Or.inr (by rw [hp]; rfl)
    · simpa using hlen
  · cases hv

/-! ## Ordered-dictionary and persistence lemmas -/

theorem setA_idem (k : String) (v : α) (l : List (String × α)) :
    setA k v (setA k v l) = setA k v l := by
  induction l with
  | nil => simp [setA]
  | cons kv rest ih =>
    obtain ⟨k', v'⟩ := kv
    by_cases h : k' = k
    · simp [setA, h]
    · simp [setA, h, ih]

theorem setA_get (k : String) (v : α) (l : List (String × α)) :
    getA k (setA k v l) = some v := by
  induction l with
  | nil => simp [setA, getA]
  | cons kv rest ih =>
    obtain ⟨k', v'⟩ := kv
    by_cases h : k' = k
    · simp [setA, getA, h]
    · simp [setA, getA, h, ih]

theorem mainRun_halt {oracle : Nat → FetchResult} {fuel : Nat} {s : CState}
    (h : failureThreshold ≤ s.consecutive_failures) :
    mainRun oracle fuel s = s := by
  cases fuel with
  | zero => rfl
  | succ n =>
    rw [mainRun, if_neg]
    omega

theorem mainStep_notFound {oracle : Nat → FetchResult} {s : CState}
    (hno : oracle (s.current_id + 1) = FetchResult.notFound) :
    mainStep oracle s =
      ⟨s.current_id + 1, s.consecutive_failures + 1, s.results_by_year, s.files⟩ := by
  simp [mainStep, hno]

theorem mainRun_notFound_chunk (oracle : Nat → FetchResult)
    (store : List (String × List VotingAct)) (files : List (String × String)) :
    ∀ k g c cf, (∀ i, c < i → i ≤ c + k → oracle i = FetchResult.notFound) →
      cf + k ≤ failureThreshold →
      mainRun oracle (g + k) ⟨c, cf, store, files⟩ =
        mainRun oracle g ⟨c + k, cf + k, store, files⟩ := by
  intro k
  induction k with
  | zero => intro g c cf _ _; rfl
  | succ n ih =>
    intro g c cf h hcf
    have hstep : mainRun oracle (g + (n + 1)) ⟨c, cf, store, files⟩ =
        mainRun oracle (g + n) ⟨c + 1, cf + 1, store, files⟩ := by
      rw [show g + (n + 1) = (g + n) + 1 from rfl, mainRun,
        if_pos (by simp only [failureThreshold] at hcf ⊢; omega),
        mainStep_notFound (h (c + 1) (by omega) (by omega))]
    rw [hstep, ih g (c + 1) (cf + 1) (fun i h1 h2 => h i (by omega) (by omega)) (by omega),
      show c + 1 + n = c + (n + 1) by omega, show cf + 1 + n = cf + (n + 1) by omega]

/-! ## The claims -/

/-- C9: persisting a fixed in-memory year collection twice, with no append
in between, leaves byte-for-byte identical stored content; the content is
a function of the collection's value alone (`renderActs coll`). -/
theorem c9_persist_idempotent (f : String) (coll : List VotingAct)
    (fs : List (String × String)) :
    persistYear f coll (persistYear f coll fs) = persistYear f coll fs ∧
    getA f (persistYear f coll fs) = some (renderActs coll) :=
  ⟨setA_idem f (renderActs coll) fs, setA_get f (renderActs coll) fs⟩

/-- C5: from any Controller state with `consecutive_failures = 0` and
cursor `c`, five consecutive not-found responses halt the run with the
counter at the threshold 5 and the cursor at `c + 5`, while the in-memory
collections and the persisted files are untouched. -/
theorem c5_five_notfound_halt (oracle : Nat → FetchResult) (c fuel : Nat)
    (store : List (String × List VotingAct)) (files : List (String × String))
    (h : ∀ i, c < i → i ≤ c + 5 → oracle i = FetchResult.notFound) (hf : 5 ≤ fuel) :
    mainRun oracle fuel ⟨c, 0, store, files⟩ = ⟨c + 5, 5, store, files⟩ := by
  obtain ⟨g, rfl⟩ : ∃ g, fuel = g + 5 := ⟨fuel - 5, by omega⟩
  rw [mainRun_notFound_chunk oracle store files 5 g c 0 h (by simp [failureThreshold])]
  exact mainRun_halt (by simp [failureThreshold])

/-- C5 witness: a concrete all-not-found source started at cursor 0. -/
theorem c5_witness :
    mainRun (fun _ => FetchResult.notFound) 5 ⟨0, 0, [], []⟩ = ⟨5, 5, [], []⟩ :=
  c5_five_notfound_halt (fun _ => FetchResult.notFound) 0 5 [] []
    (fun _ _ _ => rfl) (Nat.le_refl 5)

/-- C1 counterexample: the claim says that a parsed record lacking a
usable date (one from which no calendar year can be derived) makes the
Controller increment `consecutive_failures` by exactly 1 and never reset
it.  The text `"Fecha: 31/02/2024 10:00:00"` parses to a record whose
`date` is present but calendar-invalid (February the 31st), so no year can
be derived (`get_output_filename` fails); the record is indeed discarded
and no file written, but `main` resets `consecutive_failures` to 0 (line
204) before deriving the year, so a counter that stood at 3 drops to 0
instead of rising to 4. -/
theorem c1_counterexample :
    (parse_votation_data "Fecha: 31/02/2024 10:00:00").1.date = some "31/02/2024 10:00:00" ∧
    get_output_filename "31/02/2024 10:00:00" = none ∧
    mainStep (fun _ => FetchResult.text "Fecha: 31/02/2024 10:00:00") ⟨10, 3, [], []⟩ =
      ⟨11, 0, [], []⟩ ∧
    (mainStep (fun _ => FetchResult.text "Fecha: 31/02/2024 10:00:00")
        ⟨10, 3, [], []⟩).consecutive_failures ≠ 3 + 1 := by
  refine ⟨rfl, rfl, rfl, ?_⟩
  decide

/-- C1 amended: when the parsed record's `date` field is absent the
Controller discards the record, increments `consecutive_failures` by
exactly 1, and writes nothing; when the `date` field is present but no
calendar year can be derived from it, the record is likewise discarded
and nothing is written, but `consecutive_failures` is reset to 0. -/
theorem c1_missing_date (oracle : Nat → FetchResult) (s : CState) (t : String)
    (ho : oracle (s.current_id + 1) = FetchResult.text t) :
    ((parse_votation_data t).1.date = none →
      mainStep oracle s =
        ⟨s.current_id + 1, s.consecutive_failures + 1, s.results_by_year, s.files⟩) ∧
    (∀ d, (parse_votation_data t).1.date = some d → get_output_filename d = none →
      mainStep oracle s = ⟨s.current_id + 1, 0, s.results_by_year, s.files⟩) := by
  constructor
  · intro hd
    simp [mainStep, ho, hd]
  · intro d hd hf
    simp [mainStep, ho, hd, hf]

/-- C1 witness: a date-less text increments the counter and stores
nothing; the calendar-invalid date of `c1_counterexample` resets it. -/
theorem c1_witness :
    mainStep (fun _ => FetchResult.text "sin fecha") ⟨7, 2, [], []⟩ = ⟨8, 3, [], []⟩ ∧
    mainStep (fun _ => FetchResult.text "Fecha: 31/02/2024 10:00:00") ⟨7, 2, [], []⟩ =
      ⟨8, 0, [], []⟩ :=
  ⟨(c1_missing_date (fun _ => FetchResult.text "sin fecha") ⟨7, 2, [], []⟩ "sin fecha" rfl).1 rfl,
   (c1_missing_date (fun _ => FetchResult.text "Fecha: 31/02/2024 10:00:00") ⟨7, 2, [], []⟩
      "Fecha: 31/02/2024 10:00:00" rfl).2 "31/02/2024 10:00:00" rfl rfl⟩

/-- C4 counterexample: the claim says the absence of one field never
affects the extraction of any other.  In
`"Proyecto: ORDEN DEL DIA 5 (T)"` the motion number is found and
`project_title` receives the parenthesized segment `"T"`; in
`"Proyecto: ORDEN DEL DIA (T)"` the motion number is absent (no digits)
and the very same parenthesized segment is no longer extracted —
`project_title` instead receives the whole line.  The absence of
`motion_number` changed the value of `project_title`. -/
theorem c4_counterexample :
    (parse_votation_data "Proyecto: ORDEN DEL DIA 5 (T)").1.motion_number = some (some "5") ∧
    (parse_votation_data "Proyecto: ORDEN DEL DIA 5 (T)").1.project_title = some "T" ∧
    (parse_votation_data "Proyecto: ORDEN DEL DIA (T)").1.motion_number = none ∧
    (parse_votation_data "Proyecto: ORDEN DEL DIA (T)").1.project_title =
      some "ORDEN DEL DIA (T)" := by
  exact ⟨rfl, rfl, rfl, rfl⟩

/-- C4 amended: `parse_votation_data` is a total function (no input makes
it raise), every field other than the jointly-extracted
`motion_number`/`project_title` pair is computed by its own independent
marker search — so an absent marker yields `none` for that field and
cannot affect any of the others — while `motion_number` and
`project_title` are extracted jointly from the `Proyecto:` line, so the
absence of the `ORDEN DEL DIA` number changes which text becomes the
title. -/
theorem c4_field_independence (t : String) :
    (parse_votation_data t).1.description =
      ((descripcionSearch t.toList).map fun x => (pyStrip x).asString) ∧
    (parse_votation_data t).1.date = (dateSearch t.toList).map List.asString ∧
    (parse_votation_data t).1.quorum_type =
      ((quorumSearch t.toList).map fun x => (pyStrip x).asString) ∧
    (parse_votation_data t).1.majority_required =
      ((majoritySearch t.toList).map fun x => (pyStrip x).asString) ∧
    (parse_votation_data t).1.total_members = (membersSearch t.toList).map toNatDigits ∧
    (parse_votation_data t).1.present = (presentesSearch t.toList).map toNatDigits ∧
    (parse_votation_data t).1.absent = (ausentesSearch t.toList).map toNatDigits ∧
    (parse_votation_data t).1.affirmative = (afirmativosSearch t.toList).map toNatDigits ∧
    (parse_votation_data t).1.negative = (negativosSearch t.toList).map toNatDigits ∧
    (parse_votation_data t).1.abstentions = (abstencionesSearch t.toList).map toNatDigits ∧
    (parse_votation_data t).1.votes = extractVotes t.toList ∧
    (parse_votation_data t).1.result =
      ((resultadoSearch t.toList).map fun x => (pyStrip x).asString) ∧
    (parse_votation_data t).1.act_id = none :=
  ⟨rfl, rfl, rfl, rfl, rfl, rfl, rfl, rfl, rfl, rfl, rfl, rfl, rfl⟩

/-- C7: whenever the date search succeeds, the record's `date` field is
exactly the captured timestamp — a verbatim substring of the input of the
fixed `dd/mm/yyyy hh:mm:ss` shape, with no modification. -/
theorem c7_date_verbatim (t : String) (s : List Char)
    (h : dateSearch t.toList = some s) :
    (parse_votation_data t).1.date = some s.asString ∧
    isSubseg s t.toList ∧ tsShapeB s = true := by
  have hq' : searchFrom (tryDateAt t.toList) (t.toList.length + 1) 0 = some s := h
  obtain ⟨q, _, _, hq⟩ := searchFrom_some hq'
  obtain ⟨r, hr⟩ := tryDateAt_some_ts hq
  refine ⟨?_, tsAt_subseg hr, (tsAt_some hr).2⟩
  show (dateSearch t.toList).map List.asString = some s.asString
  rw [h]
  rfl

/-- C7 witness: a labelled, well-formed date is captured verbatim. -/
theorem c7_witness :
    (parse_votation_data "Fecha: 01/03/2023 12:00:00").1.date = some "01/03/2023 12:00:00" ∧
    isSubseg "01/03/2023 12:00:00".toList "Fecha: 01/03/2023 12:00:00".toList :=
  ⟨(c7_date_verbatim "Fecha: 01/03/2023 12:00:00" "01/03/2023 12:00:00".toList rfl).1,
   (c7_date_verbatim "Fecha: 01/03/2023 12:00:00" "01/03/2023 12:00:00".toList rfl).2.1⟩

/-- C10: the `Fecha` label prefix of the date pattern is optional and
never changes the captured value — the extracted `date` is always the
first `dd/mm/yyyy hh:mm:ss`-shaped substring of the text, and `date` is
absent exactly when no substring of that shape occurs at all. -/
theorem c10_label_optional (t : String) :
    dateSearch t.toList = firstTs t.toList ∧
    (parse_votation_data t).1.date = (firstTs t.toList).map List.asString ∧
    ((parse_votation_data t).1.date = none ↔
      ∀ w, isSubseg w t.toList → tsShapeB w = false) := by
  refine ⟨dateSearch_eq_firstTs _, ?_, ?_⟩
  · show (dateSearch t.toList).map List.asString = _
    rw [dateSearch_eq_firstTs]
  · show (dateSearch t.toList).map List.asString = none ↔ _
    rw [dateSearch_eq_firstTs, Option.map_eq_none']
    exact firstTs_none_iff _

/-- C10 witness: a bare timestamp with no `Fecha` label anywhere is still
extracted, and it is the leftmost shaped substring. -/
theorem c10_witness :
    (parse_votation_data "inicio 05/06/2021 07:08:09 fin").1.date =
      (firstTs "inicio 05/06/2021 07:08:09 fin".toList).map List.asString ∧
    (parse_votation_data "inicio 05/06/2021 07:08:09 fin").1.date =
      some "05/06/2021 07:08:09" :=
  ⟨(c10_label_optional "inicio 05/06/2021 07:08:09 fin").2.1, rfl⟩

/-- C8: every vote entry of a parsed record has a `seat` that is either a
non-empty all-digit string or exactly the literal `"Presidente"`, and a
name of length at least 2 after normalization. -/
theorem c8_seat_invariant (t : String) (v : VoteEntry)
    (h : v ∈ (parse_votation_data t).1.votes) :
    ((v.seat.toList ≠ [] ∧ v.seat.toList.all isDigitC = true) ∨ v.seat = "Presidente") ∧
    2 ≤ v.name.length :=
  @extractVotes_ok t.toList v h

/-- C8 witness: a concrete numbered seat and the presiding officer. -/
theorem c8_witness :
    ((((⟨"PEREZ JUAN", "SI", "10"⟩ : VoteEntry).seat.toList ≠ [] ∧
       (⟨"PEREZ JUAN", "SI", "10"⟩ : VoteEntry).seat.toList.all isDigitC = true) ∨
      (⟨"PEREZ JUAN", "SI", "10"⟩ : VoteEntry).seat = "Presidente") ∧
     2 ≤ (⟨"PEREZ JUAN", "SI", "10"⟩ : VoteEntry).name.length) ∧
    ((((⟨"GOMEZ ANA", "NO", "Presidente"⟩ : VoteEntry).seat.toList ≠ [] ∧
       (⟨"GOMEZ ANA", "NO", "Presidente"⟩ : VoteEntry).seat.toList.all isDigitC = true) ∨
      (⟨"GOMEZ ANA", "NO", "Presidente"⟩ : VoteEntry).seat = "Presidente") ∧
     2 ≤ (⟨"GOMEZ ANA", "NO", "Presidente"⟩ : VoteEntry).name.length) :=
  ⟨c8_seat_invariant "PEREZ JUAN SI 10" ⟨"PEREZ JUAN", "SI", "10"⟩ (by decide),
   c8_seat_invariant "GOMEZ ANA NO Presidente" ⟨"GOMEZ ANA", "NO", "Presidente"⟩ (by decide)⟩

/-- C6: whenever the reported affirmative tally is present and differs
from the number of extracted `SI` entries, the parser emits the mismatch
diagnostic, while the stored `votes` list is exactly the extracted list
(nothing removed, added or corrected) and the stored `affirmative` field
is exactly the reported number captured from the text. -/
theorem c6_mismatch_diagnostic (t : String) (n : Nat)
    (h1 : (parse_votation_data t).1.affirmative = some n)
    (h2 : countTok "SI" (parse_votation_data t).1.votes ≠ n) :
    Diag.affirmativeMismatch (countTok "SI" (parse_votation_data t).1.votes) n ∈
      (parse_votation_data t).2 ∧
    (parse_votation_data t).1.votes = extractVotes t.toList ∧
    (parse_votation_data t).1.affirmative = (afirmativosSearch t.toList).map toNatDigits := by
  refine ⟨?_, rfl, rfl⟩
  have haf : (afirmativosSearch t.toList).map toNatDigits = some n := h1
  have hcnt : countTok "SI" (extractVotes t.toList) ≠ n := h2
  show Diag.affirmativeMismatch (countTok "SI" (extractVotes t.toList)) n ∈
    (parse_votation_data t).2
  simp only [parse_votation_data]
  rw [haf]
  simp
  exact Or.inr (Or.inl hcnt)

/-- C6 witness: a reported tally of 2 against a single extracted `SI`. -/
theorem c6_witness :
    Diag.affirmativeMismatch 1 2 ∈
      (parse_votation_data "Afirmativos: 2\nPEREZ JUAN SI 10").2 ∧
    (parse_votation_data "Afirmativos: 2\nPEREZ JUAN SI 10").1.votes =
      [⟨"PEREZ JUAN", "SI", "10"⟩] := by
  have h := c6_mismatch_diagnostic "Afirmativos: 2\nPEREZ JUAN SI 10" 2 rfl (by decide)
  exact ⟨h.1, rfl⟩

/-- C3 counterexample: the claim says that when the order-of-business
marker is absent the parser falls back to the `MOCION SOBRE TABLAS`
marker.  In `"Proyecto: Algo\nMOCION SOBRE TABLAS Nº 12/34"` the
`Proyecto:` line matches but carries no `ORDEN DEL DIA` number, and the
legacy marker is present and would capture `"12/34"` — yet the code takes
the `Proyecto:` branch, stores the whole line as `project_title` and never
sets `motion_number` (the fallback of parser.py line 79 is only reached
when no `Proyecto:` line exists at all). -/
theorem c3_counterexample :
    mocionSearch "Proyecto: Algo\nMOCION SOBRE TABLAS Nº 12/34".toList =
      some "12/34".toList ∧
    (parse_votation_data "Proyecto: Algo\nMOCION SOBRE TABLAS Nº 12/34").1.motion_number =
      none ∧
    (parse_votation_data "Proyecto: Algo\nMOCION SOBRE TABLAS Nº 12/34").1.project_title =
      some "Algo" :=
  ⟨rfl, rfl, rfl⟩

/-- C3 amended: motion extraction is keyed on the `Proyecto:` line, not on
the `ORDEN DEL DIA` marker itself.  When a `Proyecto:` line is present,
the parser looks for `ORDEN DEL DIA` only inside that line: finding it
yields `motion_number` (and the optional parenthesized title); not finding
it stores the whole line as `project_title` with no `motion_number` key and
no fallback.  Only when no `Proyecto:` line exists is the legacy
`MOCION SOBRE TABLAS` marker tried, and if it also fails `motion_number`
is present with the null value. -/
theorem c3_motion_extraction (t : String) :
    (proyectoSearch t.toList = none →
      (parse_votation_data t).1.motion_number =
        some ((mocionSearch t.toList).map List.asString) ∧
      (parse_votation_data t).1.project_title = none) ∧
    (∀ cap, proyectoSearch t.toList = some cap →
      (ordenNumSearch (pyStrip cap) = none →
        (parse_votation_data t).1.motion_number = none ∧
        (parse_votation_data t).1.project_title = some (pyStrip cap).asString) ∧
      (∀ num, ordenNumSearch (pyStrip cap) = some num →
        (parse_votation_data t).1.motion_number = some (some num.asString) ∧
        (parse_votation_data t).1.project_title =
          ((ordenTitleSearch (pyStrip cap)).map fun x => (pyStrip x).asString))) := by
  constructor
  · intro hp
    cases hm : mocionSearch t.toList <;>
      (simp only [parse_votation_data]; rw [hp, hm]; exact ⟨rfl, rfl⟩)
  · intro cap hp
    constructor
    · intro ho
      simp only [parse_votation_data]
      rw [hp]
      dsimp only
      rw [ho]
      exact ⟨rfl, rfl⟩
    · intro num ho
      simp only [parse_votation_data]
      rw [hp]
      dsimp only
      rw [ho]
      exact ⟨rfl, rfl⟩

/-- C3 witness: with no `Proyecto:` line the legacy marker is consulted,
and with a `Proyecto:` line carrying an `ORDEN DEL DIA` number the
structured capture is used. -/
theorem c3_witness :
    ((parse_votation_data "MOCION SOBRE TABLAS Nº 7/8").1.motion_number =
        some ((mocionSearch "MOCION SOBRE TABLAS Nº 7/8".toList).map List.asString) ∧
      (parse_votation_data "MOCION SOBRE TABLAS Nº 7/8").1.project_title = none) ∧
    ((parse_votation_data "Proyecto: ORDEN DEL DIA 5 (T)").1.motion_number =
        some (some "5") ∧
      (parse_votation_data "Proyecto: ORDEN DEL DIA 5 (T)").1.project_title = some "T") := by
  constructor
  · exact (c3_motion_extraction "MOCION SOBRE TABLAS Nº 7/8").1 rfl
  · have h := ((c3_motion_extraction "Proyecto: ORDEN DEL DIA 5 (T)").2
      "ORDEN DEL DIA 5 (T)".toList rfl).2 "5".toList rfl
    exact ⟨h.1, h.2⟩

/-- C2 counterexample: the claim says every serialized record contains
every optional field as a key, in particular `motion_number`.  The text
`"Proyecto: Algo\n01/01/2024 10:00:00"` parses to a storable record (its
date is valid), the Controller appends and persists it — but its
`Proyecto:` line carries no `ORDEN DEL DIA` number, so the code path of
parser.py lines 74-76 never sets the `motion_number` key, and the
serialized object has no `motion_number` key at all (rather than a null
value). -/
theorem c2_counterexample :
    (parse_votation_data "Proyecto: Algo\n01/01/2024 10:00:00").1.date =
      some "01/01/2024 10:00:00" ∧
    (mainStep (fun _ => FetchResult.text "Proyecto: Algo\n01/01/2024 10:00:00")
        ⟨0, 0, [], []⟩).results_by_year =
      [("senate_voting_data_2024.json",
        [{ (parse_votation_data "Proyecto: Algo\n01/01/2024 10:00:00").1 with
            act_id := some 1 }])] ∧
    ¬ "motion_number" ∈ (serializeFields
      { (parse_votation_data "Proyecto: Algo\n01/01/2024 10:00:00").1 with
          act_id := some 1 }).map Prod.fst := by
  refine ⟨rfl, rfl, ?_⟩
  decide

/-- C2 amended: a serialized record always contains the twelve keys
`description` … `result` (with null standing for an absent value), and its
`votes` value is the array of vote objects each carrying exactly the keys
`name`, `vote`, `seat`; but `motion_number` is a key only when the parser
set it (it is omitted when a `Proyecto:` line without an `ORDEN DEL DIA`
number matched) and `project_title` is a key only when a title was
extracted; `act_id` is appended last when the Controller stored the
record. -/
theorem c2_serialized_fields (a : VotingAct) (v : VoteEntry) :
    (serializeFields a).map Prod.fst =
      (match a.motion_number with | none => [] | some _ => ["motion_number"]) ++
      (match a.project_title with | none => [] | some _ => ["project_title"]) ++
      ["description", "date", "quorum_type", "majority_required", "total_members",
       "present", "absent", "affirmative", "negative", "abstentions", "votes", "result"] ++
      (match a.act_id with | none => [] | some _ => ["act_id"]) ∧
    ("description", optStr a.description) ∈ serializeFields a ∧
    ("date", optStr a.date) ∈ serializeFields a ∧
    ("quorum_type", optStr a.quorum_type) ∈ serializeFields a ∧
    ("majority_required", optStr a.majority_required) ∈ serializeFields a ∧
    ("total_members", optNat a.total_members) ∈ serializeFields a ∧
    ("present", optNat a.present) ∈ serializeFields a ∧
    ("absent", optNat a.absent) ∈ serializeFields a ∧
    ("affirmative", optNat a.affirmative) ∈ serializeFields a ∧
    ("negative", optNat a.negative) ∈ serializeFields a ∧
    ("abstentions", optNat a.abstentions) ∈ serializeFields a ∧
    ("votes", JValue.jarr (a.votes.map fun u => JValue.jobj (voteFields u))) ∈
      serializeFields a ∧
    ("result", optStr a.result) ∈ serializeFields a ∧
    (voteFields v).map Prod.fst = ["name", "vote", "seat"] := by
  rcases a with ⟨mn, pt, de, dt, qt, mj, tm, pr, ab, af, ng, abst, vs, rs, ai⟩
  rcases mn with _ | m <;> rcases pt with _ | p <;> rcases ai with _ | i <;>
    simp [serializeFields, voteFields]

end Senate
